import Mathlib

/-!
Verification of the beanprice price-source adapters (coinbase.py, yahoo.py)
against their natural-language specification.

Shallow embedding conventions:
* Python `Decimal` values are modelled as `ℚ`; the string parser `Decimal(s)`
  is modelled by `parseDecimal` (sign, digits, optional fractional part;
  exponents and whitespace accepted by Python are not needed by any claim).
* Timezone-aware datetimes are modelled by their instant: an `Int` of UTC
  epoch seconds.  A timezone only changes how an instant is rendered, never
  the instant itself, so it is not tracked.
* HTTP traffic is modelled by environment records holding the response each
  network call would produce; a `NetResult` is either a response or a
  `requests.RequestException` carrying its message.
* Python exceptions become `Except` values.  `CoinbaseError` / `YahooError`
  carry their message string; exceptions of other classes that the code
  does not catch (e.g. `decimal.InvalidOperation`, `KeyError`) are separate
  constructors so that `except` clauses can be modelled faithfully.
* Python `repr(...)` interpolations inside error messages are rendered by
  simple structural functions (braces rendered as parentheses); no claim
  depends on the exact repr text.
* `str.lower` / `str.upper` are modelled per-character (ASCII), which agrees
  with Python on the ticker and currency-code strings in scope.
-/

set_option linter.unusedVariables false
set_option maxRecDepth 8000
set_option linter.unnecessarySimpa false

deriving instance DecidableEq for Except

namespace Beanprice

/-- Pointwise ASCII lower-casing, modelling `str.lower()`. -/
def strLower (s : String) : String := ⟨s.data.map Char.toLower⟩

/-- Pointwise ASCII upper-casing, modelling `str.upper()`. -/
def strUpper (s : String) : String := ⟨s.data.map Char.toUpper⟩

/-- Split a character list on a separator, modelling `str.split(sep)` for a
single-character separator (e.g. `''.split('-') == ['']`). -/
def splitOnChar (sep : Char) : List Char → List (List Char)
  | [] => [[]]
  | x :: rest =>
    if x = sep then [] :: splitOnChar sep rest
    else
      match splitOnChar sep rest with
      | [] => [[x]]
      | h :: t => (x :: h) :: t

/-- Digit run to a natural number (`"50000"` ↦ `50000`). -/
def digitsToNat (cs : List Char) : Nat := cs.foldl (fun n c => 10 * n + (c.toNat - 48)) 0

/-- Non-empty run of ASCII digits. -/
def isDigits (cs : List Char) : Bool := !cs.isEmpty && cs.all Char.isDigit

/-- Model of `decimal.Decimal(s)` on a string: optional sign, integer part,
optional fractional part.  `none` models `decimal.InvalidOperation`. -/
def parseDecimal (s : String) : Option ℚ :=
  let signBody : Bool × List Char :=
    match s.data with
    | '-' :: rest => (true, rest)
    | '+' :: rest => (false, rest)
    | cs => (false, cs)
  let neg := signBody.1
  match splitOnChar '.' signBody.2 with
  | [ip] =>
    if isDigits ip then
      let v : ℚ := (digitsToNat ip : ℕ)
      some (if neg then -v else v)
    else none
  | [ip, fp] =>
    if (isDigits ip || ip.isEmpty) && (isDigits fp || fp.isEmpty) && !(ip.isEmpty && fp.isEmpty) then
      let v : ℚ := (digitsToNat ip : ℕ) + ((digitsToNat fp : ℕ) : ℚ) / ((10 : ℚ) ^ fp.length)
      some (if neg then -v else v)
    else none
  | _ => none

/-- Modelled from the spec: the uniform Quote record
`(price, timestamp, currency)` returned by every adapter call
(`beanprice/source.py`, which defines `SourcePrice`, is not under `src/`;
the spec describes it as an immutable (price, timestamp, currency) record).
The timestamp is an instant in UTC epoch seconds. -/
structure SourcePrice where
  price : ℚ
  time : Int
  currency : String
deriving DecidableEq, Repr

/-- Outcome of one network call: a response, or a
`requests.exceptions.RequestException` carrying its message. -/
inductive NetResult (α : Type) where
  | ok (response : α)
  | netError (msg : String)
deriving DecidableEq

/-- UTC calendar day of an instant, modelling
`time.astimezone(tz.tzutc()).date()` (day number since the epoch stands in
for the rendered ISO date; the two determine each other). -/
def utcDay (t : Int) : Int := Int.fdiv t 86400

namespace Coinbase

/-- One element of a list-shaped `data` payload; each JSON key may be absent. -/
structure CbEntry where
  base : Option String
  currency : Option String
  amount : Option String
deriving DecidableEq, Repr

/-- The polymorphic `data` field of a Coinbase response: a single object
(with possibly-missing `amount` / `currency` keys) or a list of entries. -/
inductive CbData where
  | obj (amount : Option String) (currency : Option String)
  | list (entries : List CbEntry)
deriving DecidableEq

/-- A Coinbase HTTP response: status code, raw body text, decoded `data`. -/
structure CbResponse where
  status : Nat
  text : String
  data : CbData
deriving DecidableEq

/-- Errors escaping `fetch_quote`: a `CoinbaseError` with its message, or the
uncaught `decimal.InvalidOperation` raised by `Decimal` on a malformed
amount string. -/
inductive CbErr where
  | coinbase (msg : String)
  | invalidOperation
deriving DecidableEq

/-- Rendering of an optional string inside repr-interpolated messages. -/
def reprOptStr : Option String → String
  | none => "None"
  | some s => s

/-- Structural stand-in for `repr` of a data entry. -/
def cbEntryRepr (e : CbEntry) : String :=
  "(base: " ++ reprOptStr e.base ++ ", currency: " ++ reprOptStr e.currency ++
    ", amount: " ++ reprOptStr e.amount ++ ")"

/-- Structural stand-in for `repr` of the decoded response body. -/
def cbDataRepr : CbData → String
  | .obj a c => "(data: (amount: " ++ reprOptStr a ++ ", currency: " ++ reprOptStr c ++ "))"
  | .list es => "(data: (" ++ String.intercalate ", " (es.map cbEntryRepr) ++ "))"

/-- `ticker.lower().split('-')`, as used by the list branch of `fetch_quote`. -/
def tickerParts (ticker : String) : List String :=
  (splitOnChar '-' (strLower ticker).data).map (fun cs => (⟨cs⟩ : String))

/-- `Decimal(data_item.get("amount", 0))`: a missing key yields `Decimal(0)`;
a malformed string raises `decimal.InvalidOperation` (uncaught). -/
def decimalListAmount (amount : Option String) : Except CbErr ℚ :=
  match amount with
  | none => .ok 0
  | some s =>
    match parseDecimal s with
    | some q => .ok q
    | none => .error .invalidOperation

/-- Predicate of the exact-match filter: entry base and currency both equal
the ticker parts, all compared upper-cased. -/
def matchesBoth (baseCur quoteCur : String) (it : CbEntry) : Bool :=
  strUpper (it.base.getD "") == baseCur && strUpper (it.currency.getD "") == quoteCur

/-- Predicate of the quote-only filter: entry currency equals the ticker's
quote part, compared upper-cased. -/
def matchesQuote (quoteCur : String) (it : CbEntry) : Bool :=
  strUpper (it.currency.getD "") == quoteCur

/-- Model of `coinbase.fetch_quote(ticker, time)`.  `time` is the optional
historical instant, `resp` the provider response, `now` the instant
`datetime.datetime.now(tz.tzutc())` would return. -/
def fetch_quote (ticker : String) (time : Option Int) (resp : CbResponse) (now : Int) :
    Except CbErr SourcePrice :=
  if resp.status ≠ 200 then
    .error (.coinbase ("Invalid response (" ++ toString resp.status ++ "): " ++ resp.text))
  else
    let priceCurrency : Except CbErr (ℚ × String) :=
      match resp.data with
      | .list entries =>
        match tickerParts ticker with
        | [b, q] =>
          let base_currency := strUpper b
          let quote_currency := strUpper q
          match entries.filter (matchesBoth base_currency quote_currency) with
          | item :: _ =>
            (decimalListAmount item.amount).map (fun p => (p, item.currency.getD ""))
          | [] =>
            match entries.filter (matchesQuote quote_currency) with
            | item :: _ =>
              (decimalListAmount item.amount).map (fun p => (p, item.currency.getD ""))
            | [] =>
              match entries with
              | item :: _ =>
                (decimalListAmount item.amount).map (fun p => (p, item.currency.getD ""))
              | [] =>
                .error (.coinbase ("No price data found in response: " ++
                  cbDataRepr (.list entries)))
        | _ =>
          .error (.coinbase ("Invalid ticker format: " ++ ticker ++
            ". Expected format: BASE-CURRENCY"))
      | .obj amount currency =>
        match amount with
        | none =>
          .error (.coinbase ("Failed to parse response: " ++
            cbDataRepr (.obj amount currency) ++ ". Error: KeyError"))
        | some a =>
          match parseDecimal a with
          | none => .error .invalidOperation
          | some p =>
            match currency with
            | none =>
              .error (.coinbase ("Failed to parse response: " ++
                cbDataRepr (.obj amount currency) ++ ". Error: KeyError"))
            | some c => .ok (p, c)
    match priceCurrency with
    | .error e => .error e
    | .ok pc => .ok ⟨pc.1, (time.getD now), pc.2⟩

/-- The `date` query parameter sent to the spot endpoint: present exactly
when a historical time is supplied, holding only its UTC calendar date. -/
def fetch_quote_request_date (time : Option Int) : Option Int :=
  time.map utcDay

/-- The entry-resolution order stated by the spec for a list-shaped `data`
payload: first entry matching base and quote, else first entry matching the
quote currency, else the first entry. -/
def resolveEntry (baseCur quoteCur : String) (entries : List CbEntry) : Option CbEntry :=
  match entries.find? (matchesBoth baseCur quoteCur) with
  | some e => some e
  | none =>
    match entries.find? (matchesQuote quoteCur) with
    | some e => some e
    | none => entries.head?

end Coinbase

namespace Yahoo

/-- Errors escaping the Yahoo adapter's functions: a `YahooError` carrying
its message, or an exception of another class (`KeyError` from an absent
`meta`/`indicators` field) that no `except` clause of the module catches. -/
inductive YErr where
  | yahoo (msg : String)
  | uncaught (msg : String)
deriving DecidableEq

/-- `response.text[:100]`. -/
def take100 (s : String) : String := ⟨s.data.take 100⟩

/-- The envelope value under the single top-level key of a v7/v8 response:
an `error` field and a `result` list (either may be absent or null). -/
structure YContent (α : Type) where
  error : Option String
  result : Option (List α)
deriving DecidableEq

/-- A Yahoo HTTP response: status, raw body text, and the decoded JSON
body — `none` when the body is not valid JSON, otherwise the top-level
dict as an ordered key/value list (a `none` value models JSON null). -/
structure YResponse (α : Type) where
  status : Nat
  text : String
  json : Option (List (String × Option (YContent α)))
deriving DecidableEq

/-- `",".join(json.keys())`. -/
def joinKeys {α : Type} (kvs : List (String × Option (YContent α))) : String :=
  String.intercalate "," (kvs.map (fun kv => kv.1))

/-- Model of `yahoo.parse_response`.  The repr of the whole json payload in
the unexpected-format message is abstracted to its key list. -/
def parse_response {α : Type} (r : YResponse α) : Except String α :=
  match r.json with
  | none => .error ("Invalid JSON response from Yahoo: " ++ take100 r.text ++ "...")
  | some [] => .error "Empty response from Yahoo"
  | some ((key, content?) :: rest) =>
    match content? with
    | none =>
      .error ("Unexpected response format from Yahoo: (keys: " ++
        joinKeys ((key, content?) :: rest) ++ ")")
    | some content =>
      if r.status ≠ 200 then
        .error ("Status " ++ toString r.status ++ ": " ++ content.error.getD "Unknown error")
      else if rest.length ≠ 0 then
        .error ("Invalid format in response from Yahoo; many keys: " ++
          joinKeys ((key, content?) :: rest))
      else if content.error.isSome then
        .error ("Error fetching Yahoo data: " ++ content.error.getD "")
      else
        match content.result with
        | none => .error "No data returned from Yahoo, ensure that the symbol is correct"
        | some [] => .error "No data returned from Yahoo, ensure that the symbol is correct"
        | some (res :: _) => .ok res

/-- The `_MARKETS` table mapping market identifiers to currencies. -/
def MARKETS : List (String × String) :=
  [("us_market", "USD"), ("ca_market", "CAD"), ("ch_market", "CHF")]

/-- One element of the v7 quote endpoint's `result` list; every key that
`Source.get_latest_price` reads may be absent. -/
structure YQuoteResult where
  regularMarketPrice : Option ℚ
  gmtOffSetMilliseconds : Option Int
  exchangeTimezoneName : Option String
  regularMarketTime : Option Int
  market : Option String
  currency : Option String
deriving DecidableEq

/-- Rendering of an optional rational inside repr-interpolated messages. -/
def reprOptRat : Option ℚ → String
  | none => "None"
  | some q => toString q

/-- Rendering of an optional integer inside repr-interpolated messages. -/
def reprOptInt : Option Int → String
  | none => "None"
  | some n => toString n

/-- Structural stand-in for `repr(result)` of a quote result. -/
def yQuoteResultRepr (r : YQuoteResult) : String :=
  "(regularMarketPrice: " ++ reprOptRat r.regularMarketPrice ++
    ", regularMarketTime: " ++ reprOptInt r.regularMarketTime ++
    ", market: " ++ Coinbase.reprOptStr r.market ++
    ", currency: " ++ Coinbase.reprOptStr r.currency ++ ")"

/-- Model of `yahoo.parse_currency`: the `_MARKETS` entry for the result's
`market` field, `None` when the field is absent or unknown. -/
def parse_currency (result : YQuoteResult) : Option String :=
  match result.market with
  | none => none
  | some m => MARKETS.lookup m

/-- The `price` module of a v10 quoteSummary result:
`regularMarketPrice.raw` and `currency`, each possibly absent. -/
structure AltPriceData where
  regularMarketPriceRaw : Option ℚ
  currency : Option String
deriving DecidableEq

/-- One element of the v10 quoteSummary `result` list. -/
structure AltResult where
  price : Option AltPriceData
deriving DecidableEq

/-- Decoded v10 quoteSummary body; `result = none` covers an empty body, a
missing `quoteSummary` key, and a missing/null `result` (the code raises
the same error for all of them). -/
structure AltResponse where
  result : Option (List AltResult)
deriving DecidableEq

/-- Model of `yahoo.get_price_from_alternative_api`.  Connection failures
and `raise_for_status` both surface as `RequestException`, modelled by
`NetResult.netError`; `now` is the instant `datetime.now(timezone.utc)`
would return. -/
def get_price_from_alternative_api (ticker : String) (resp : NetResult AltResponse)
    (now : Int) : Except String (ℚ × Int × String) :=
  match resp with
  | .netError m =>
    .error ("Error fetching data from alternative API for " ++ ticker ++ ": " ++ m)
  | .ok r =>
    match r.result with
    | none => .error ("No data returned for " ++ ticker)
    | some [] => .error ("No data returned for " ++ ticker)
    | some (res :: _) =>
      match res.price with
      | none => .error ("Price data not found for " ++ ticker)
      | some priceData =>
        if priceData.regularMarketPriceRaw.getD 0 = 0 then
          .error ("Invalid price (0) for " ++ ticker)
        else
          .ok (priceData.regularMarketPriceRaw.getD 0, now, priceData.currency.getD "USD")

/-- The fields `get_price_from_yfinance` reads from `yf.Ticker(t).info`. -/
structure YfinInfo where
  regularMarketPrice : Option ℚ
  currency : Option String
deriving DecidableEq

/-- Model of `yahoo.get_price_from_yfinance`: `available` is whether the
`yfinance` import succeeds, `info` the outcome of reading `.info`
(`error` = exception message). -/
def get_price_from_yfinance (ticker : String) (available : Bool)
    (info : Except String YfinInfo) (now : Int) : Except String (ℚ × Int × String) :=
  if available = false then
    .error "yfinance library not installed. Install with 'pip install yfinance'"
  else
    match info with
    | .error m => .error ("Error fetching data with yfinance for " ++ ticker ++ ": " ++ m)
    | .ok i =>
      match i.regularMarketPrice with
      | none =>
        .error ("Error fetching data with yfinance for " ++ ticker ++
          ": Could not find price data for " ++ ticker)
      | some p => .ok (p, now, i.currency.getD "USD")

/-- `meta` of a v8 chart result.  `gmtoffset`/`exchangeTimezoneName` feed
only the fixed-offset timezone (fall back to UTC when absent), which does
not change any instant, so they are carried but unused. -/
structure ChartMeta where
  gmtoffset : Option Int
  exchangeTimezoneName : Option String
  currency : Option String
deriving DecidableEq

/-- One element of the chart endpoint's `result` list.  `close = none`
models any missing level of `indicators.quote[0].close`. -/
structure ChartResult where
  meta : Option ChartMeta
  timestamp : Option (List Int)
  close : Option (List (Option ℚ))
deriving DecidableEq

/-- Rendering of a price series inside repr-interpolated messages. -/
def reprSeries (s : List (Int × ℚ)) : String :=
  "(" ++ String.intercalate ", "
    (s.map (fun x => "(" ++ toString x.1 ++ ", " ++ toString x.2 ++ ")")) ++ ")"

/-- The primary (chart-endpoint) attempt inside `get_price_series`'s `try`
block.  A missing `meta` or `indicators` raises `KeyError`, which the
surrounding `except (YahooError, RequestException)` does not catch. -/
def get_price_series_primary (ticker : String) (timeBegin timeEnd : Int)
    (chart : NetResult (YResponse ChartResult)) : Except YErr (List (Int × ℚ) × String) :=
  match chart with
  | .netError m => .error (.yahoo m)
  | .ok resp =>
    if resp.text = "" ∨ resp.status ≠ 200 then
      .error (.yahoo ("Invalid response from Yahoo for " ++ ticker ++ ": Status " ++
        toString resp.status))
    else
      match parse_response resp with
      | .error e => .error (.yahoo e)
      | .ok result =>
        match result.meta with
        | none => .error (.uncaught "KeyError: meta")
        | some meta =>
          match result.timestamp with
          | none =>
            .error (.yahoo ("Yahoo returned no data for ticker " ++ ticker ++
              " for time range " ++ toString timeBegin ++ " - " ++ toString timeEnd))
          | some ts =>
            match result.close with
            | none => .error (.uncaught "KeyError: indicators")
            | some closes =>
              .ok ((ts.zip closes).filterMap (fun tc => tc.2.map (fun p => (tc.1, p))),
                meta.currency.getD "USD")

/-- The network responses one `get_price_series` call can consume: the
chart response, then (on fallback) the alternative-API response and the
yfinance outcome. -/
structure SeriesEnv where
  chart : NetResult (YResponse ChartResult)
  alt : NetResult AltResponse
  yfAvailable : Bool
  yfInfo : Except String YfinInfo
  now : Int
deriving DecidableEq

/-- Model of `yahoo.get_price_series`: the chart attempt, then the
alternative API and yfinance each contributing a single current-moment
point, and finally the original chart error re-raised with ticker
context. -/
def get_price_series (ticker : String) (timeBegin timeEnd : Int) (env : SeriesEnv) :
    Except YErr (List (Int × ℚ) × String) :=
  match get_price_series_primary ticker timeBegin timeEnd env.chart with
  | .ok sc => .ok sc
  | .error (.uncaught m) => .error (.uncaught m)
  | .error (.yahoo e) =>
    match get_price_from_alternative_api ticker env.alt env.now with
    | .ok ptc => .ok ([(ptc.2.1, ptc.1)], ptc.2.2)
    | .error _ =>
      match get_price_from_yfinance ticker env.yfAvailable env.yfInfo env.now with
      | .ok ptc => .ok ([(ptc.2.1, ptc.1)], ptc.2.2)
      | .error _ =>
        .error (.yahoo ("Failed to get price data for " ++ ticker ++ ": " ++ e))

/-- The network responses one `Source.get_latest_price` call can consume. -/
structure LatestEnv where
  primary : NetResult (YResponse YQuoteResult)
  alt : NetResult AltResponse
  yfAvailable : Bool
  yfInfo : Except String YfinInfo
  now : Int
deriving DecidableEq

/-- Currency resolution of `Source.get_latest_price`: market table first,
then the explicit `currency` field, then the `"USD"` default. -/
def resolve_latest_currency (result : YQuoteResult) : String :=
  match parse_currency result with
  | some c => c
  | none =>
    match result.currency with
    | some c => c
    | none => "USD"

/-- The primary (v7 quote endpoint) attempt inside `Source.get_latest_price`'s
`try` block; every failure it can raise is a `YahooError` (or the
`RequestException` from the network), both caught by the outer handler,
so the error is just its message. -/
def get_latest_price_primary (ticker : String) (primary : NetResult (YResponse YQuoteResult)) :
    Except String SourcePrice :=
  match primary with
  | .netError m => .error m
  | .ok resp =>
    match parse_response resp with
    | .error e => .error (e ++ " (ticker: " ++ ticker ++ ")")
    | .ok result =>
      match result.regularMarketPrice, result.gmtOffSetMilliseconds,
            result.exchangeTimezoneName, result.regularMarketTime with
      | some price, some _, some _, some rmt =>
        .ok ⟨price, rmt, resolve_latest_currency result⟩
      | _, _, _, _ =>
        .error ("Invalid response from Yahoo: " ++ yQuoteResultRepr result)

/-- Model of `yahoo.Source.get_latest_price` with its three-strategy
fallback chain. -/
def get_latest_price (ticker : String) (env : LatestEnv) : Except YErr SourcePrice :=
  match get_latest_price_primary ticker env.primary with
  | .ok q => .ok q
  | .error e =>
    match get_price_from_alternative_api ticker env.alt env.now with
    | .ok ptc => .ok ⟨ptc.1, ptc.2.1, ptc.2.2⟩
    | .error _ =>
      match get_price_from_yfinance ticker env.yfAvailable env.yfInfo env.now with
      | .ok ptc => .ok ⟨ptc.1, ptc.2.1, ptc.2.2⟩
      | .error _ =>
        .error (.yahoo ("Failed to get price data for " ++ ticker ++ ": " ++ e))

/-- The comparison `sorted(series)` sorts by: lexicographic order on the
(timestamp, price) tuples. -/
def pairLe (a b : Int × ℚ) : Prop := a.1 < b.1 ∨ (a.1 = b.1 ∧ a.2 ≤ b.2)

instance : DecidableRel pairLe := fun a b => by unfold pairLe; exact inferInstance

instance : IsTrans (Int × ℚ) pairLe :=
  ⟨by
    rintro a b c (h₁ | ⟨h₁, h₁q⟩) (h₂ | ⟨h₂, h₂q⟩)
    · exact Or.inl (lt_trans h₁ h₂)
    · exact Or.inl (h₂ ▸ h₁)
    · exact Or.inl (h₁ ▸ h₂)
    · exact Or.inr ⟨h₁.trans h₂, le_trans h₁q h₂q⟩⟩

instance : IsTotal (Int × ℚ) pairLe :=
  ⟨by
    intro a b
    rcases lt_trichotomy a.1 b.1 with h | h | h
    · exact Or.inl (Or.inl h)
    · rcases le_total a.2 b.2 with hq | hq
      · exact Or.inl (Or.inr ⟨h, hq⟩)
      · exact Or.inr (Or.inr ⟨h.symm, hq⟩)
    · exact Or.inr (Or.inl h)⟩

/-- `sorted(series)`.  Lexicographic order on `(Int, ℚ)` pairs is
antisymmetric, so every correct sort (Python's timsort, insertion sort)
returns the same list; insertion sort is used as the model. -/
def sortSeries (series : List (Int × ℚ)) : List (Int × ℚ) :=
  List.insertionSort pairLe series

/-- The selection loop of `Source.get_historical_price`: scan the sorted
series, remember the last point seen, break at the first point at or after
the requested time (`latest` is the loop accumulator). -/
def scanSeries (time : Int) (latest : Option (Int × ℚ)) :
    List (Int × ℚ) → Option (Int × ℚ)
  | [] => latest
  | e :: rest => if time ≤ e.1 then latest else scanSeries time (some e) rest

/-- The tail of `Source.get_historical_price` after a series was obtained:
sort, scan, and either fail (`latest is None`) or build the Quote from the
selected point. -/
def select_historical (time : Int) (series : List (Int × ℚ)) (currency : String) :
    Except YErr SourcePrice :=
  match scanSeries time none (sortSeries series) with
  | none =>
    .error (.yahoo ("Could not find price before " ++ toString time ++ " in " ++
      reprSeries series))
  | some dp => .ok ⟨dp.2, dp.1, currency⟩

/-- The network responses one `Source.get_historical_price` call can
consume: one `SeriesEnv` per `get_price_series` attempt, then its own
alternative-API and yfinance fallbacks. -/
structure HistEnv where
  series5 : SeriesEnv
  series30 : SeriesEnv
  alt : NetResult AltResponse
  yfAvailable : Bool
  yfInfo : Except String YfinInfo
  now : Int
deriving DecidableEq

/-- Model of `yahoo.Source.get_historical_price`: 5-day window, then
30-day window, then single-point fallbacks; if everything fails the
original 5-day error `e` is re-raised. -/
def get_historical_price (ticker : String) (time : Int) (env : HistEnv) :
    Except YErr SourcePrice :=
  match get_price_series ticker (time - 432000) time env.series5 with
  | .ok sc => select_historical time sc.1 sc.2
  | .error (.uncaught m) => .error (.uncaught m)
  | .error (.yahoo e) =>
    match get_price_series ticker (time - 2592000) time env.series30 with
    | .ok sc => select_historical time sc.1 sc.2
    | .error (.uncaught m) => .error (.uncaught m)
    | .error (.yahoo _) =>
      match get_price_from_alternative_api ticker env.alt env.now with
      | .ok ptc => .ok ⟨ptc.1, ptc.2.1, ptc.2.2⟩
      | .error _ =>
        match get_price_from_yfinance ticker env.yfAvailable env.yfInfo env.now with
        | .ok ptc => .ok ⟨ptc.1, ptc.2.1, ptc.2.2⟩
        | .error _ => .error (.yahoo e)

/-- Model of `yahoo.Source.get_daily_prices`: one chart fetch, one Quote
per series point, all sharing the resolved currency. -/
def get_daily_prices (ticker : String) (timeBegin timeEnd : Int) (env : SeriesEnv) :
    Except YErr (List SourcePrice) :=
  match get_price_series ticker timeBegin timeEnd env with
  | .error e => .error e
  | .ok sc => .ok (sc.1.map (fun tp => (⟨tp.2, tp.1, sc.2⟩ : SourcePrice)))

/-- The session state `Source.__init__` establishes. -/
structure Session where
  userAgentSet : Bool
  crumb : String
deriving DecidableEq

/-- Model of `yahoo.Source.__init__`: the cookie fetch's outcome is
swallowed entirely; the crumb fetch's text is stored, or the empty string
when it raises a `RequestException`. -/
def source_init (cookieFetch : NetResult Unit) (crumbFetch : NetResult String) : Session :=
  ⟨true,
    match crumbFetch with
    | .ok text => text
    | .netError _ => ""⟩

/-- The provider itself sent an explicit empty-string currency through the
primary quote endpoint's result. -/
def primarySuppliedEmptyCurrency (primary : NetResult (YResponse YQuoteResult)) : Prop :=
  ∃ resp res, primary = .ok resp ∧ parse_response resp = .ok res ∧ res.currency = some ""

/-- The provider sent an explicit empty-string currency through the
alternative endpoint's price module. -/
def altSuppliedEmptyCurrency (alt : NetResult AltResponse) : Prop :=
  ∃ r res rest priceData, alt = .ok r ∧ r.result = some (res :: rest) ∧
    res.price = some priceData ∧ priceData.currency = some ""

/-- The yfinance info dict carried an explicit empty-string currency. -/
def yfSuppliedEmptyCurrency (info : Except String YfinInfo) : Prop :=
  ∃ i, info = .ok i ∧ i.currency = some ""

end Yahoo

/-! ## Theorems -/

open Coinbase Yahoo

/-- The head of a filtered list is the first element satisfying the predicate. -/
theorem find?_eq_head?_filter {α : Type} (p : α → Bool) (l : List α) :
    l.find? p = (l.filter p).head? := by
  induction l with
  | nil => rfl
  | cons a l ih =>
    rw [List.find?_cons, List.filter_cons]
    cases h : p a
    · simpa using ih
    · simp

/-- `resolveEntry` comes up empty exactly on the empty candidate list. -/
theorem resolveEntry_none_iff (bc qc : String) (entries : List CbEntry) :
    resolveEntry bc qc entries = none ↔ entries = [] := by
  constructor
  · intro h
    unfold resolveEntry at h
    cases h1 : entries.find? (matchesBoth bc qc) with
    | some e => rw [h1] at h; cases h
    | none =>
      rw [h1] at h
      cases h2 : entries.find? (matchesQuote qc) with
      | some e => rw [h2] at h; cases h
      | none =>
        rw [h2] at h
        cases entries with
        | nil => rfl
        | cons a l => cases h
  · intro h
    subst h
    rfl

/-- On a 200 response with list-shaped data and a two-part ticker,
`fetch_quote` builds its Quote from exactly the entry `resolveEntry`
designates, and raises the no-price-data error when there is none. -/
theorem fetch_quote_list_eq (ticker : String) (time : Option Int) (text : String)
    (entries : List CbEntry) (now : Int) (b q : String)
    (hsplit : tickerParts ticker = [b, q]) :
    fetch_quote ticker time ⟨200, text, .list entries⟩ now =
      match resolveEntry (strUpper b) (strUpper q) entries with
      | some e => (decimalListAmount e.amount).map
          (fun p => (⟨p, time.getD now, e.currency.getD ""⟩ : SourcePrice))
      | none => .error (.coinbase ("No price data found in response: " ++
          cbDataRepr (.list entries))) := by
  cases hf1 : entries.filter (matchesBoth (strUpper b) (strUpper q)) with
  | cons it rest =>
    have hr : resolveEntry (strUpper b) (strUpper q) entries = some it := by
      simp [resolveEntry, find?_eq_head?_filter, hf1]
    rw [hr]
    cases hd : decimalListAmount it.amount with
    | ok p => simp [fetch_quote, hsplit, hf1, hd, Except.map]
    | error e => simp [fetch_quote, hsplit, hf1, hd, Except.map]
  | nil =>
    cases hf2 : entries.filter (matchesQuote (strUpper q)) with
    | cons it rest =>
      have hr : resolveEntry (strUpper b) (strUpper q) entries = some it := by
        simp [resolveEntry, find?_eq_head?_filter, hf1, hf2]
      rw [hr]
      cases hd : decimalListAmount it.amount with
      | ok p => simp [fetch_quote, hsplit, hf1, hf2, hd, Except.map]
      | error e => simp [fetch_quote, hsplit, hf1, hf2, hd, Except.map]
    | nil =>
      cases entries with
      | cons it rest =>
        have hr : resolveEntry (strUpper b) (strUpper q) (it :: rest) = some it := by
          simp [resolveEntry, find?_eq_head?_filter, hf1, hf2]
        rw [hr]
        cases hd : decimalListAmount it.amount with
        | ok p => simp [fetch_quote, hsplit, hf1, hf2, hd, Except.map]
        | error e => simp [fetch_quote, hsplit, hf1, hf2, hd, Except.map]
      | nil =>
        have hr : resolveEntry (strUpper b) (strUpper q) ([] : List CbEntry) = none := rfl
        rw [hr]
        simp [fetch_quote, hsplit]

/-- Claim C1: for every crypto-adapter call whose response has a
list-shaped data field, the entry used to build the Quote is resolved in
order: exact base+quote match, then first quote-currency match, then the
first entry; the empty list fails with a CoinbaseError; and for ticker
BTC-USD with candidates (ETH, USD, 2000) and (BTC, USD, 50000) the result
is price 50000, currency USD. -/
theorem c1_list_resolution_order :
    (∀ ticker time text entries now b q,
      tickerParts ticker = [b, q] →
      ((∀ e, resolveEntry (strUpper b) (strUpper q) entries = some e →
          fetch_quote ticker time ⟨200, text, .list entries⟩ now =
            (decimalListAmount e.amount).map
              (fun p => (⟨p, time.getD now, e.currency.getD ""⟩ : SourcePrice)))
        ∧ (entries = [] →
            fetch_quote ticker time ⟨200, text, .list entries⟩ now =
              .error (.coinbase ("No price data found in response: " ++
                cbDataRepr (.list entries))))
        ∧ (resolveEntry (strUpper b) (strUpper q) entries = none ↔ entries = [])))
    ∧ fetch_quote "BTC-USD" none
        ⟨200, "", .list [⟨some "ETH", some "USD", some "2000"⟩,
          ⟨some "BTC", some "USD", some "50000"⟩]⟩ 0 =
        .ok ⟨50000, 0, "USD"⟩ := by
  refine ⟨?_, by decide⟩
  intro ticker time text entries now b q hsplit
  refine ⟨?_, ?_, resolveEntry_none_iff _ _ _⟩
  · intro e he
    rw [fetch_quote_list_eq ticker time text entries now b q hsplit, he]
  · intro he
    subst he
    rw [fetch_quote_list_eq ticker time text [] now b q hsplit]
    rfl

/-- Witness for C1 at a concrete input. -/
theorem c1_witness :
    fetch_quote "BTC-GBP" none ⟨200, "x", .list [⟨some "BTC", some "GBP", some "100"⟩]⟩ 5 =
      (decimalListAmount (some "100")).map
        (fun p => (⟨p, 5, "GBP"⟩ : SourcePrice)) :=
  (c1_list_resolution_order.1 "BTC-GBP" none "x"
      [⟨some "BTC", some "GBP", some "100"⟩] 5 "btc" "gbp" (by decide)).1
    ⟨some "BTC", some "GBP", some "100"⟩ (by decide)

/-- Claim C9: in the list path a selected entry without an amount key
yields a successful Quote with price 0 (currency defaulting to the empty
string), while the single-object path raises a CoinbaseError on a missing
amount key. -/
theorem c9_list_missing_amount :
    (∀ ticker time text entries now b q e,
      tickerParts ticker = [b, q] →
      resolveEntry (strUpper b) (strUpper q) entries = some e →
      e.amount = none →
      fetch_quote ticker time ⟨200, text, .list entries⟩ now =
        .ok ⟨0, time.getD now, e.currency.getD ""⟩)
    ∧ (∀ ticker time text currency now,
        fetch_quote ticker time ⟨200, text, .obj none currency⟩ now =
          .error (.coinbase ("Failed to parse response: " ++
            cbDataRepr (.obj none currency) ++ ". Error: KeyError")))
    ∧ fetch_quote "BTC-USD" none ⟨200, "", .list [⟨none, some "USD", none⟩]⟩ 9 =
        .ok ⟨0, 9, "USD"⟩ := by
  refine ⟨?_, ?_, by decide⟩
  · intro ticker time text entries now b q e hsplit hres hamt
    rw [fetch_quote_list_eq ticker time text entries now b q hsplit, hres]
    simp [decimalListAmount, hamt, Except.map]
  · intro ticker time text currency now
    rfl

/-- Witness for C9 at a concrete input. -/
theorem c9_witness :
    fetch_quote "a-b" none ⟨200, "t", .list [⟨some "A", some "B", none⟩]⟩ 4 =
      .ok ⟨0, 4, "B"⟩ :=
  c9_list_missing_amount.1 "a-b" none "t" [⟨some "A", some "B", none⟩] 4 "a" "b"
    ⟨some "A", some "B", none⟩ (by decide) (by decide) rfl

/-- Claim C10: with a supplied historical time the returned Quote's
timestamp is exactly that time whatever the provider answers, and the
request's date parameter carries only the UTC calendar date of it. -/
theorem c10_historical_timestamp :
    (∀ ticker t resp now quote,
      fetch_quote ticker (some t) resp now = .ok quote → quote.time = t)
    ∧ (∀ t u, utcDay t = utcDay u →
        fetch_quote_request_date (some t) = fetch_quote_request_date (some u))
    ∧ (∀ t, fetch_quote_request_date (some t) = some (utcDay t)) := by
  refine ⟨?_, ?_, fun t => rfl⟩
  · intro ticker t resp now quote h
    simp only [fetch_quote] at h
    split at h
    · cases h
    · split at h
      · cases h
      · injection h with h
        subst h
        rfl
  · intro t u h
    simp [fetch_quote_request_date, h]

/-- Witness for C10 at a concrete input. -/
theorem c10_witness :
    (SourcePrice.mk 3 1000 "EUR").time = 1000 :=
  c10_historical_timestamp.1 "x-y" 1000 ⟨200, "", .obj (some "3") (some "EUR")⟩ 7
    ⟨3, 1000, "EUR"⟩ (by decide)

/-- Claim C4 counterexample: a successful crypto-adapter call returning a
Quote whose currency is the empty string (first-entry fallback, entry
without currency or amount keys), contradicting the non-empty-currency
invariant. -/
theorem c4_counterexample :
    fetch_quote "BTC-USD" none ⟨200, "", .list [⟨none, none, none⟩]⟩ 0 =
        .ok ⟨0, 0, ""⟩ ∧
      (SourcePrice.mk 0 0 "").currency = "" := by
  exact ⟨by decide, rfl⟩

/-- Claim C7 counterexample: the crypto adapter's invalid-HTTP-response
failure is user-visible yet its message does not contain the ticker. -/
theorem c7_counterexample :
    fetch_quote "BTC-USD" none ⟨404, "Not Found", .obj none none⟩ 0 =
        .error (.coinbase "Invalid response (404): Not Found") ∧
      ¬ ("BTC-USD".data <:+: "Invalid response (404): Not Found".data) := by
  exact ⟨by decide, by decide⟩

/-- When every strategy of `get_latest_price` fails, the raised error wraps
the first strategy's message. -/
theorem get_latest_price_all_fail (ticker : String) (env : LatestEnv) (e m2 m3 : String)
    (h1 : get_latest_price_primary ticker env.primary = .error e)
    (h2 : get_price_from_alternative_api ticker env.alt env.now = .error m2)
    (h3 : get_price_from_yfinance ticker env.yfAvailable env.yfInfo env.now = .error m3) :
    get_latest_price ticker env =
      .error (.yahoo ("Failed to get price data for " ++ ticker ++ ": " ++ e)) := by
  simp only [get_latest_price, h1, h2, h3]

/-- When every strategy of `get_price_series` fails, the raised error wraps
the first (chart) strategy's message. -/
theorem get_price_series_all_fail (ticker : String) (tb te : Int) (env : SeriesEnv)
    (e m2 m3 : String)
    (h1 : get_price_series_primary ticker tb te env.chart = .error (.yahoo e))
    (h2 : get_price_from_alternative_api ticker env.alt env.now = .error m2)
    (h3 : get_price_from_yfinance ticker env.yfAvailable env.yfInfo env.now = .error m3) :
    get_price_series ticker tb te env =
      .error (.yahoo ("Failed to get price data for " ++ ticker ++ ": " ++ e)) := by
  simp only [get_price_series, h1, h2, h3]

/-- Claim C3: when all three strategies fail, the error surfaced by
`get_latest_price` (and by `get_price_series`) is built from the primary
strategy's error alone — the conclusion does not mention the later
strategies' messages. -/
theorem c3_first_strategy_error_surfaced :
    (∀ ticker env e m2 m3,
      get_latest_price_primary ticker env.primary = .error e →
      get_price_from_alternative_api ticker env.alt env.now = .error m2 →
      get_price_from_yfinance ticker env.yfAvailable env.yfInfo env.now = .error m3 →
      get_latest_price ticker env =
        .error (.yahoo ("Failed to get price data for " ++ ticker ++ ": " ++ e)))
    ∧ (∀ ticker tb te env e m2 m3,
      get_price_series_primary ticker tb te env.chart = .error (.yahoo e) →
      get_price_from_alternative_api ticker env.alt env.now = .error m2 →
      get_price_from_yfinance ticker env.yfAvailable env.yfInfo env.now = .error m3 →
      get_price_series ticker tb te env =
        .error (.yahoo ("Failed to get price data for " ++ ticker ++ ": " ++ e))) :=
  ⟨fun ticker env e m2 m3 h1 h2 h3 => get_latest_price_all_fail ticker env e m2 m3 h1 h2 h3,
   fun ticker tb te env e m2 m3 h1 h2 h3 =>
     get_price_series_all_fail ticker tb te env e m2 m3 h1 h2 h3⟩

/-- Witness for C3 at a concrete input. -/
theorem c3_witness :
    get_latest_price "TICK" ⟨.netError "boom", .netError "altdown", false, .error "noyf", 0⟩ =
      .error (.yahoo ("Failed to get price data for " ++ "TICK" ++ ": " ++ "boom")) :=
  c3_first_strategy_error_surfaced.1 "TICK"
    ⟨.netError "boom", .netError "altdown", false, .error "noyf", 0⟩
    "boom" "Error fetching data from alternative API for TICK: altdown"
    "yfinance library not installed. Install with 'pip install yfinance'"
    rfl rfl rfl

/-- Claim C7 amended: user-visible failures include, where available, a
snippet of the raw provider response, and the equities adapter's final
all-strategies-failed error includes the ticker; but the crypto adapter's
invalid-HTTP-response error carries only status and response text, not the
ticker. -/
theorem c7_amended :
    (∀ ticker time resp now, resp.status ≠ 200 →
      fetch_quote ticker time resp now =
        .error (.coinbase ("Invalid response (" ++ toString resp.status ++ "): " ++ resp.text)) ∧
      resp.text.data <:+:
        ("Invalid response (" ++ toString resp.status ++ "): " ++ resp.text).data)
    ∧ (∀ ticker env e m2 m3,
      get_latest_price_primary ticker env.primary = .error e →
      get_price_from_alternative_api ticker env.alt env.now = .error m2 →
      get_price_from_yfinance ticker env.yfAvailable env.yfInfo env.now = .error m3 →
      ∃ msg, get_latest_price ticker env = .error (.yahoo msg) ∧
        ticker.data <:+: msg.data) := by
  constructor
  · intro ticker time resp now h
    constructor
    · simp [fetch_quote, h]
    · exact ⟨("Invalid response (" ++ toString resp.status ++ "): ").data, [],
        by simp [String.data_append]⟩
  · intro ticker env e m2 m3 h1 h2 h3
    refine ⟨_, get_latest_price_all_fail ticker env e m2 m3 h1 h2 h3, ?_⟩
    exact ⟨"Failed to get price data for ".data, (": " ++ e).data,
      by simp [String.data_append]⟩

/-- Witness for C7 at a concrete input. -/
theorem c7_witness :
    fetch_quote "BTC-USD" none ⟨500, "oops", .obj none none⟩ 0 =
        .error (.coinbase ("Invalid response (" ++ toString (500 : Nat) ++ "): " ++ "oops")) ∧
      "oops".data <:+: ("Invalid response (" ++ toString (500 : Nat) ++ "): " ++ "oops").data :=
  c7_amended.1 "BTC-USD" none ⟨500, "oops", .obj none none⟩ 0 (by decide)

/-- The sorted series is pairwise nondecreasing in its timestamps. -/
theorem sortSeries_pairwise_fst (series : List (Int × ℚ)) :
    (sortSeries series).Pairwise (fun a b => a.1 ≤ b.1) := by
  have h : List.Sorted pairLe (sortSeries series) := List.sorted_insertionSort pairLe series
  exact h.imp (fun hab => by
    rcases hab with h1 | ⟨h1, _⟩
    · exact le_of_lt h1
    · exact le_of_eq h1)

/-- Sorting permutes the series. -/
theorem sortSeries_perm (series : List (Int × ℚ)) : (sortSeries series).Perm series :=
  List.perm_insertionSort pairLe series

/-- With a non-empty accumulator the scan never returns `none`. -/
theorem scanSeries_some_isSome (t : Int) :
    ∀ (l : List (Int × ℚ)) (a : Int × ℚ), (scanSeries t (some a) l).isSome := by
  intro l
  induction l with
  | nil => intro a; rfl
  | cons e rest ih =>
    intro a
    rw [scanSeries]
    by_cases ht : t ≤ e.1
    · rw [if_pos ht]; rfl
    · rw [if_neg ht]; exact ih e

/-- A successful scan over a timestamp-sorted list yields a point strictly
before `t` that is latest among them — unless the accumulator is returned
untouched because the whole list lies at or after `t`. -/
theorem scanSeries_mem_spec (t : Int) :
    ∀ (l : List (Int × ℚ)), l.Pairwise (fun a b => a.1 ≤ b.1) →
      ∀ (acc : Option (Int × ℚ)) (m : Int × ℚ), scanSeries t acc l = some m →
        (m ∈ l ∧ m.1 < t ∧ ∀ x ∈ l, x.1 < t → x.1 ≤ m.1) ∨
        (acc = some m ∧ ∀ x ∈ l, ¬ x.1 < t) := by
  intro l
  induction l with
  | nil =>
    intro _ acc m h
    exact Or.inr ⟨h, by simp⟩
  | cons e rest ih =>
    intro hp acc m h
    rw [scanSeries] at h
    rcases List.pairwise_cons.mp hp with ⟨hhead, htail⟩
    by_cases ht : t ≤ e.1
    · rw [if_pos ht] at h
      refine Or.inr ⟨h, ?_⟩
      intro x hx
      rcases List.mem_cons.mp hx with hx | hx
      · subst hx; omega
      · have := hhead x hx; omega
    · rw [if_neg ht] at h
      rcases ih htail (some e) m h with ⟨hm, hmt, hbound⟩ | ⟨hacc, hnone⟩
      · refine Or.inl ⟨List.mem_cons_of_mem _ hm, hmt, ?_⟩
        intro x hx hxt
        rcases List.mem_cons.mp hx with hx | hx
        · subst hx; exact hhead m hm
        · exact hbound x hx hxt
      · left
        injection hacc with hacc
        subst hacc
        refine ⟨List.mem_cons_self e rest, by omega, ?_⟩
        intro x hx hxt
        rcases List.mem_cons.mp hx with hx | hx
        · subst hx
          exact le_refl _
        · exact absurd hxt (hnone x hx)

/-- The empty-accumulator scan returns `none` exactly when no point of the
sorted list lies strictly before `t`. -/
theorem scanSeries_none_iff (t : Int) (l : List (Int × ℚ))
    (hl : l.Pairwise (fun a b => a.1 ≤ b.1)) :
    scanSeries t none l = none ↔ ∀ x ∈ l, ¬ x.1 < t := by
  cases l with
  | nil => simp [scanSeries]
  | cons e rest =>
    rw [scanSeries]
    rcases List.pairwise_cons.mp hl with ⟨hhead, htail⟩
    by_cases ht : t ≤ e.1
    · rw [if_pos ht]
      constructor
      · intro _ x hx
        rcases List.mem_cons.mp hx with hx | hx
        · subst hx; omega
        · have := hhead x hx; omega
      · intro _; rfl
    · rw [if_neg ht]
      constructor
      · intro h
        have hsome := scanSeries_some_isSome t rest e
        rw [h] at hsome
        simp at hsome
      · intro hall
        exact absurd (show e.1 < t by omega) (hall e (List.mem_cons_self e rest))

/-- Selection from an obtained series: the Quote is the latest point
strictly before the requested time, and the call fails when the series
has no point strictly before it. -/
theorem select_historical_spec (t : Int) (series : List (Int × ℚ)) (currency : String) :
    ((∃ x ∈ series, x.1 < t) →
      ∃ d p, select_historical t series currency = .ok ⟨p, d, currency⟩ ∧ d < t ∧
        (d, p) ∈ series ∧ ∀ x ∈ series, x.1 < t → x.1 ≤ d) ∧
    ((∀ x ∈ series, ¬ x.1 < t) →
      ∃ msg, select_historical t series currency = .error (.yahoo msg)) := by
  have hperm : (sortSeries series).Perm series := sortSeries_perm series
  have hpw := sortSeries_pairwise_fst series
  constructor
  · rintro ⟨x, hx, hxt⟩
    cases hs : scanSeries t none (sortSeries series) with
    | none =>
      exact absurd hxt (((scanSeries_none_iff t _ hpw).mp hs) x (hperm.mem_iff.mpr hx))
    | some m =>
      rcases scanSeries_mem_spec t (sortSeries series) hpw none m hs with
        ⟨hm, hmt, hbound⟩ | ⟨hacc, _⟩
      · refine ⟨m.1, m.2, ?_, hmt, ?_, ?_⟩
        · unfold select_historical
          rw [hs]
        · rw [Prod.mk.eta]
          exact hperm.mem_iff.mp hm
        · intro y hy hyt
          exact hbound y (hperm.mem_iff.mpr hy) hyt
      · cases hacc
  · intro hall
    have hn : scanSeries t none (sortSeries series) = none :=
      (scanSeries_none_iff t _ hpw).mpr (fun y hy => hall y (hperm.mem_iff.mp hy))
    refine ⟨"Could not find price before " ++ toString t ++ " in " ++ reprSeries series, ?_⟩
    unfold select_historical
    rw [hn]

/-- Claim C2: a historical lookup that obtains a price series (5-day
window, or 30-day window after the first attempt fails) sorts it and
returns the latest (timestamp, price) point strictly before the requested
time, failing with a YahooError when no point lies before it. -/
theorem c2_historical_last_point_before :
    ∀ ticker time env series currency,
      (get_price_series ticker (time - 432000) time env.series5 = .ok (series, currency) ∨
        (∃ e, get_price_series ticker (time - 432000) time env.series5 = .error (.yahoo e) ∧
          get_price_series ticker (time - 2592000) time env.series30 = .ok (series, currency))) →
      ((∃ x ∈ series, x.1 < time) →
        ∃ d p, get_historical_price ticker time env = .ok ⟨p, d, currency⟩ ∧ d < time ∧
          (d, p) ∈ series ∧ ∀ x ∈ series, x.1 < time → x.1 ≤ d) ∧
      ((∀ x ∈ series, ¬ x.1 < time) →
        ∃ msg, get_historical_price ticker time env = .error (.yahoo msg)) := by
  intro ticker time env series currency hobt
  have heq : get_historical_price ticker time env = select_historical time series currency := by
    rcases hobt with h5 | ⟨e, h5, h30⟩
    · simp only [get_historical_price, h5]
    · simp only [get_historical_price, h5, h30]
  rw [heq]
  exact select_historical_spec time series currency

/-- Witness for C2 at a concrete input: series (0,10), (100,12), (200,15)
queried at time 150 selects (100,12). -/
theorem c2_witness :
    ∃ d p, get_historical_price "T" 150
        ⟨⟨.ok ⟨200, "x", some [("chart", some ⟨none,
            some [⟨some ⟨none, none, some "USD"⟩, some [0, 100, 200],
              some [some 10, some 12, some 15]⟩]⟩)]⟩,
          .netError "na", false, .error "nf", 0⟩,
         ⟨.netError "nb", .netError "nb", false, .error "nf", 0⟩,
         .netError "nc", false, .error "nf", 0⟩ =
        .ok ⟨p, d, "USD"⟩ ∧ d < 150 ∧
      (d, p) ∈ [((0 : Int), (10 : ℚ)), (100, 12), (200, 15)] ∧
      ∀ x ∈ [((0 : Int), (10 : ℚ)), (100, 12), (200, 15)], x.1 < 150 → x.1 ≤ d :=
  (c2_historical_last_point_before "T" 150
    ⟨⟨.ok ⟨200, "x", some [("chart", some ⟨none,
        some [⟨some ⟨none, none, some "USD"⟩, some [0, 100, 200],
          some [some 10, some 12, some 15]⟩]⟩)]⟩,
      .netError "na", false, .error "nf", 0⟩,
     ⟨.netError "nb", .netError "nb", false, .error "nf", 0⟩,
     .netError "nc", false, .error "nf", 0⟩
    [(0, 10), (100, 12), (200, 15)] "USD" (Or.inl (by decide))).1 (by decide)

/-- Mapping the series points into Quotes commutes with dropping the null
closes. -/
theorem filterMap_map_series (l : List (Int × Option ℚ)) (cur : String) :
    ((l.filterMap (fun tc => tc.2.map (fun p => (tc.1, p)))).map
        (fun tp => (⟨tp.2, tp.1, cur⟩ : SourcePrice))) =
      l.filterMap (fun tc => tc.2.map (fun p => (⟨p, tc.1, cur⟩ : SourcePrice))) := by
  induction l with
  | nil => rfl
  | cons a l ih =>
    cases h : a.2 <;> simp [List.filterMap_cons, h, ih]

/-- One Quote per non-null close: dropping the null closes preserves the
count of `isSome` entries. -/
theorem length_filterMap_close {β : Type} (l : List (Int × Option ℚ)) (f : Int → ℚ → β) :
    (l.filterMap (fun tc => tc.2.map (f tc.1))).length =
      (l.filter (fun tc => tc.2.isSome)).length := by
  induction l with
  | nil => rfl
  | cons a l ih =>
    cases h : a.2 with
    | none => simp [List.filterMap_cons, List.filter_cons, h, ih]
    | some p => simp [List.filterMap_cons, List.filter_cons, h, ih]

/-- Claim C6: a daily-series request served by the chart endpoint maps
each non-null close to one Quote, all sharing the one resolved currency,
and drops null closes. -/
theorem c6_daily_prices :
    ∀ ticker tb te env key text meta ts closes,
      env.chart = .ok ⟨200, text, some [(key, some ⟨none,
        some [⟨some meta, some ts, some closes⟩]⟩)]⟩ →
      text ≠ "" →
      ∃ qs, get_daily_prices ticker tb te env = .ok qs ∧
        qs = (ts.zip closes).filterMap
          (fun tc => tc.2.map (fun p => (⟨p, tc.1, meta.currency.getD "USD"⟩ : SourcePrice))) ∧
        (∀ quote ∈ qs, quote.currency = meta.currency.getD "USD") ∧
        qs.length = ((ts.zip closes).filter (fun tc => tc.2.isSome)).length := by
  intro ticker tb te env key text meta ts closes hchart htext
  have hprim : get_price_series_primary ticker tb te env.chart =
      .ok ((ts.zip closes).filterMap (fun tc => tc.2.map (fun p => (tc.1, p))),
        meta.currency.getD "USD") := by
    rw [hchart]
    simp [get_price_series_primary, parse_response, htext]
  have hseries : get_price_series ticker tb te env =
      .ok ((ts.zip closes).filterMap (fun tc => tc.2.map (fun p => (tc.1, p))),
        meta.currency.getD "USD") := by
    simp only [get_price_series, hprim]
  refine ⟨(ts.zip closes).filterMap
      (fun tc => tc.2.map (fun p => (⟨p, tc.1, meta.currency.getD "USD"⟩ : SourcePrice))),
    ?_, rfl, ?_, ?_⟩
  · simp only [get_daily_prices, hseries]
    rw [filterMap_map_series]
  · intro quote hq
    rcases List.mem_filterMap.mp hq with ⟨tc, _, htc⟩
    cases ho : tc.2 with
    | none => rw [ho] at htc; cases htc
    | some p =>
      rw [ho] at htc
      injection htc with htc
      rw [← htc]
  · exact length_filterMap_close (ts.zip closes)
      (fun t p => (⟨p, t, meta.currency.getD "USD"⟩ : SourcePrice))

/-- Witness for C6 at a concrete input: closes (10, null, 15) produce
exactly two Quotes. -/
theorem c6_witness :
    ∃ qs, get_daily_prices "X" 0 2
        ⟨.ok ⟨200, "y", some [("chart", some ⟨none,
          some [⟨some ⟨none, none, some "USD"⟩, some [0, 1, 2],
            some [some 10, none, some 15]⟩]⟩)]⟩, .netError "na", false, .error "nf", 0⟩ =
        .ok qs ∧
      qs = [⟨10, 0, "USD"⟩, ⟨15, 2, "USD"⟩] ∧
      (∀ quote ∈ qs, quote.currency = "USD") ∧
      qs.length = 2 :=
  c6_daily_prices "X" 0 2
    ⟨.ok ⟨200, "y", some [("chart", some ⟨none,
      some [⟨some ⟨none, none, some "USD"⟩, some [0, 1, 2],
        some [some 10, none, some 15]⟩]⟩)]⟩, .netError "na", false, .error "nf", 0⟩
    "chart" "y" ⟨none, none, some "USD"⟩ [0, 1, 2] [some 10, none, some 15] rfl (by decide)

/-- Claim C5: the alternative API treats a raw price of 0 (present or
defaulted) as invalid and fails; in the fallback chain the adapter then
proceeds to the yfinance strategy, whose Quote is what the caller gets. -/
theorem c5_alternative_zero_price :
    (∀ ticker r res rest priceData now,
      r.result = some (res :: rest) → res.price = some priceData →
      priceData.regularMarketPriceRaw.getD 0 = 0 →
      get_price_from_alternative_api ticker (.ok r) now =
        .error ("Invalid price (0) for " ++ ticker))
    ∧ (∀ ticker env e r res rest priceData ptc,
      get_latest_price_primary ticker env.primary = .error e →
      env.alt = .ok r → r.result = some (res :: rest) → res.price = some priceData →
      priceData.regularMarketPriceRaw.getD 0 = 0 →
      get_price_from_yfinance ticker env.yfAvailable env.yfInfo env.now = .ok ptc →
      get_latest_price ticker env = .ok ⟨ptc.1, ptc.2.1, ptc.2.2⟩) := by
  have alt0 : ∀ ticker r res rest priceData now,
      r.result = some (res :: rest) → res.price = some priceData →
      priceData.regularMarketPriceRaw.getD 0 = 0 →
      get_price_from_alternative_api ticker (.ok r) now =
        .error ("Invalid price (0) for " ++ ticker) := by
    intro ticker r res rest priceData now hr hp h0
    simp [get_price_from_alternative_api, hr, hp, h0]
  refine ⟨alt0, ?_⟩
  intro ticker env e r res rest priceData ptc h1 halt hr hp h0 hyf
  have halt2 : get_price_from_alternative_api ticker env.alt env.now =
      .error ("Invalid price (0) for " ++ ticker) := by
    rw [halt]
    exact alt0 ticker r res rest priceData env.now hr hp h0
  simp only [get_latest_price, h1, halt2, hyf]

/-- Witness for C5 at a concrete input. -/
theorem c5_witness :
    get_latest_price "Z"
      ⟨.netError "down", .ok ⟨some [⟨some ⟨some 0, some "USD"⟩⟩]⟩, true,
        .ok ⟨some 7, some "EUR"⟩, 0⟩ = .ok ⟨7, 0, "EUR"⟩ :=
  c5_alternative_zero_price.2 "Z"
    ⟨.netError "down", .ok ⟨some [⟨some ⟨some 0, some "USD"⟩⟩]⟩, true,
      .ok ⟨some 7, some "EUR"⟩, 0⟩
    "down" ⟨some [⟨some ⟨some 0, some "USD"⟩⟩]⟩ ⟨some ⟨some 0, some "USD"⟩⟩ []
    ⟨some 0, some "USD"⟩ (7, 0, "EUR") rfl rfl rfl rfl rfl rfl

/-- Claim C8: construction of the equities adapter always succeeds
whatever the cookie fetch does; a failed crumb fetch leaves the stored
token empty, a successful one stores the response text. -/
theorem c8_init_always_succeeds :
    ∀ cookieFetch msg,
      (∀ text, source_init cookieFetch (.ok text) = ⟨true, text⟩) ∧
      source_init cookieFetch (.netError msg) = ⟨true, ""⟩ :=
  fun _ _ => ⟨fun _ => rfl, rfl⟩

/-- A market-table hit is always one of the three table currencies. -/
theorem markets_lookup_mem (m c : String) (h : MARKETS.lookup m = some c) :
    c = "USD" ∨ c = "CAD" ∨ c = "CHF" := by
  simp only [MARKETS, List.lookup] at h
  split at h
  · exact Or.inl (by injection h with h; exact h.symm)
  · split at h
    · exact Or.inr (Or.inl (by injection h with h; exact h.symm))
    · split at h
      · exact Or.inr (Or.inr (by injection h with h; exact h.symm))
      · cases h

/-- The resolved currency of the primary strategy is empty only when the
provider's explicit currency field is the empty string. -/
theorem resolve_latest_currency_empty (result : YQuoteResult)
    (h : resolve_latest_currency result = "") : result.currency = some "" := by
  cases hpc : parse_currency result with
  | some c =>
    simp only [resolve_latest_currency, hpc] at h
    subst h
    exfalso
    unfold parse_currency at hpc
    cases hm : result.market with
    | none => rw [hm] at hpc; cases hpc
    | some m =>
      rw [hm] at hpc
      rcases markets_lookup_mem m _ hpc with h | h | h <;> exact absurd h (by decide)
  | none =>
    cases hc : result.currency with
    | none => simp [resolve_latest_currency, hpc, hc] at h
    | some c =>
      simp only [resolve_latest_currency, hpc, hc] at h
      exact congrArg some h

/-- A primary-strategy Quote with empty currency means the provider's
result carried an explicit empty currency. -/
theorem latest_primary_empty_currency (ticker : String)
    (primary : NetResult (YResponse YQuoteResult)) (quote : SourcePrice)
    (h : get_latest_price_primary ticker primary = .ok quote)
    (hc : quote.currency = "") : primarySuppliedEmptyCurrency primary := by
  cases primary with
  | netError m => simp [get_latest_price_primary] at h
  | ok resp =>
    cases hp : parse_response resp with
    | error e => simp [get_latest_price_primary, hp] at h
    | ok result =>
      simp only [get_latest_price_primary, hp] at h
      split at h
      · injection h with h
        subst h
        exact ⟨resp, result, rfl, hp, resolve_latest_currency_empty result hc⟩
      · cases h

/-- An alternative-API Quote with empty currency means the price module
carried an explicit empty currency. -/
theorem alt_empty_currency (ticker : String) (alt : NetResult AltResponse) (now : Int)
    (ptc : ℚ × Int × String)
    (h : get_price_from_alternative_api ticker alt now = .ok ptc)
    (hc : ptc.2.2 = "") : altSuppliedEmptyCurrency alt := by
  cases alt with
  | netError m => simp [get_price_from_alternative_api] at h
  | ok r =>
    cases hr : r.result with
    | none => simp [get_price_from_alternative_api, hr] at h
    | some lst =>
      cases lst with
      | nil => simp [get_price_from_alternative_api, hr] at h
      | cons res rest =>
        cases hp : res.price with
        | none => simp [get_price_from_alternative_api, hr, hp] at h
        | some priceData =>
          by_cases h0 : priceData.regularMarketPriceRaw.getD 0 = 0
          · simp [get_price_from_alternative_api, hr, hp, h0] at h
          · simp only [get_price_from_alternative_api, hr, hp, if_neg h0] at h
            injection h with h
            subst h
            have hc2 : priceData.currency.getD "USD" = "" := hc
            cases hcc : priceData.currency with
            | none =>
              rw [hcc] at hc2
              exact absurd hc2 (by decide)
            | some c =>
              rw [hcc] at hc2
              simp at hc2
              exact ⟨r, res, rest, priceData, rfl, hr, hp, by rw [hcc, hc2]⟩

/-- A yfinance Quote with empty currency means the info dict carried an
explicit empty currency. -/
theorem yf_empty_currency (ticker : String) (available : Bool)
    (info : Except String YfinInfo) (now : Int) (ptc : ℚ × Int × String)
    (h : get_price_from_yfinance ticker available info now = .ok ptc)
    (hc : ptc.2.2 = "") : yfSuppliedEmptyCurrency info := by
  by_cases ha : available = false
  · simp [get_price_from_yfinance, ha] at h
  · cases info with
    | error m => simp [get_price_from_yfinance, if_neg ha] at h
    | ok i =>
      cases hp : i.regularMarketPrice with
      | none => simp [get_price_from_yfinance, if_neg ha, hp] at h
      | some p =>
        simp only [get_price_from_yfinance, if_neg ha, hp] at h
        injection h with h
        subst h
        have hc2 : i.currency.getD "USD" = "" := hc
        cases hcc : i.currency with
        | none =>
          rw [hcc] at hc2
          exact absurd hc2 (by decide)
        | some c =>
          rw [hcc] at hc2
          simp at hc2
          exact ⟨i, rfl, by rw [hcc, hc2]⟩

/-- Claim C4 amended: every successful Quote is fully populated, and the
equities adapter's currency (fallback "USD" substituted when the provider
omits one) can be empty only when the provider itself supplied an explicit
empty-string currency; the crypto object path returns exactly the
provider's currency, while its list path may return an empty currency
(see the counterexample). -/
theorem c4_amended :
    (∀ ticker env quote,
      get_latest_price ticker env = .ok quote → quote.currency = "" →
      primarySuppliedEmptyCurrency env.primary ∨ altSuppliedEmptyCurrency env.alt ∨
        yfSuppliedEmptyCurrency env.yfInfo)
    ∧ (∀ ticker time amount currencyOpt text now quote,
      fetch_quote ticker time ⟨200, text, .obj amount currencyOpt⟩ now = .ok quote →
      currencyOpt = some quote.currency) := by
  constructor
  · intro ticker env quote h hc
    cases h1 : get_latest_price_primary ticker env.primary with
    | ok q0 =>
      simp only [get_latest_price, h1] at h
      injection h with h
      subst h
      exact Or.inl (latest_primary_empty_currency ticker env.primary q0 h1 hc)
    | error e =>
      cases h2 : get_price_from_alternative_api ticker env.alt env.now with
      | ok ptc =>
        simp only [get_latest_price, h1, h2] at h
        injection h with h
        subst h
        exact Or.inr (Or.inl (alt_empty_currency ticker env.alt env.now ptc h2 hc))
      | error m2 =>
        cases h3 : get_price_from_yfinance ticker env.yfAvailable env.yfInfo env.now with
        | ok ptc =>
          simp only [get_latest_price, h1, h2, h3] at h
          injection h with h
          subst h
          exact Or.inr (Or.inr
            (yf_empty_currency ticker env.yfAvailable env.yfInfo env.now ptc h3 hc))
        | error m3 => simp [get_latest_price, h1, h2, h3] at h
  · intro ticker time amount currencyOpt text now quote h
    simp only [fetch_quote] at h
    split at h
    · cases h
    · split at h
      · cases h
      · rename_i pc hpc
        injection h with h
        subst h
        cases amount with
        | none => cases hpc
        | some a =>
          simp only [] at hpc
          cases hd : parseDecimal a with
          | none => rw [hd] at hpc; cases hpc
          | some p =>
            rw [hd] at hpc
            cases hcc : currencyOpt with
            | none => rw [hcc] at hpc; cases hpc
            | some cur =>
              rw [hcc] at hpc
              injection hpc with hpc
              rw [← hpc]

/-- Witness for C4 at a concrete input. -/
theorem c4_witness :
    primarySuppliedEmptyCurrency (.netError "down") ∨
      altSuppliedEmptyCurrency (.ok ⟨some [⟨some ⟨some 5, some ""⟩⟩]⟩) ∨
      yfSuppliedEmptyCurrency (.error "no") :=
  c4_amended.1 "T"
    ⟨.netError "down", .ok ⟨some [⟨some ⟨some 5, some ""⟩⟩]⟩, false, .error "no", 0⟩
    ⟨5, 0, ""⟩ (by decide) rfl

end Beanprice

